import Mathlib

/-!
Verification development for the fitness-studio booking backend.

The embedding follows the studio app of the repository:
  - models.py      : Client, FitnessClass, Booking rows,
  - serializers.py : BookingSerializer.validate / BookingSerializer.create,
                     FitnessClassSerializer.get_start_time_local,
                     CreateFitnessClassSerializer,
  - views.py       : FitnessClassList.get_queryset,
                     BookingListByEmail.get_queryset.

The relational store is a record of three tables (lists of rows) together
with the autoincrement counters the store assigns to primary keys.
Timestamps and offsets are integers (minutes); Python integers are
unbounded, so no modular wrap is involved anywhere.
-/

/-- Client row (models.py): store-assigned id, free-text name, and the
email used as natural key (unique=True on the model). -/
structure Client where
  id : Nat
  name : String
  email : String
deriving Repr, DecidableEq

/-- FitnessClass row (models.py): class_name, instructor, available_slots
and start_time. The slots counter is declared PositiveIntegerField on the
model, but in serializers.py the decrement acts on a plain Python integer
attribute with no guard at write time, so the field is carried as Int here
and nonnegativity is a property to prove, not an assumption. -/
structure FitnessClass where
  id : Nat
  class_name : String
  instructor : String
  available_slots : Int
  start_time : Int
deriving Repr, DecidableEq

/-- Booking row (models.py): foreign keys to one FitnessClass and one
Client. -/
structure Booking where
  id : Nat
  fitness_class_id : Nat
  client_id : Nat
deriving Repr, DecidableEq

/-- Database state: the three tables plus the autoincrement counters for
the primary keys the store assigns on insert. -/
structure DB where
  clients : List Client
  classes : List FitnessClass
  bookings : List Booking
  nextClientId : Nat
  nextClassId : Nat
  nextBookingId : Nat
deriving Repr, DecidableEq

/-- FitnessClass.objects.get(id=class_id): the row whose primary key equals
the given integer, if any. The request-side class_id is an Int while stored
ids are Nat, so the stored id is cast for the comparison. -/
def DB.findClass (db : DB) (i : Int) : Option FitnessClass :=
  db.classes.find? (fun c => (c.id : Int) == i)

/-- Client.objects lookup by email (the filter inside get_or_create). -/
def DB.findClientByEmail (db : DB) (e : String) : Option Client :=
  db.clients.find? (fun c => c.email == e)

/-- Client row reached through the Booking foreign key (client__email
traversal in BookingListByEmail). -/
def DB.findClientById (db : DB) (i : Nat) : Option Client :=
  db.clients.find? (fun c => c.id == i)

/-- fitness_class.save(): an UPDATE of every classes row whose primary key
matches the saved instance (primary keys are unique in the real store, so
at most one row changes there). -/
def DB.saveClass (db : DB) (fc : FitnessClass) : DB :=
  { db with classes := db.classes.map (fun c => if c.id = fc.id then fc else c) }

/-- BookingSerializer.validate (serializers.py lines 131-159). The Python
guard `if not class_id` is true both when the key is absent (data.get gave
None) and when the caller supplied the falsy integer 0; both paths raise
with the message of the required field. Then the class is fetched (absence
raises the not-exist message) and the capacity check rejects
available_slots <= 0. On success the validated class_id is returned. The
method performs only reads. -/
def validateBooking (db : DB) (class_id : Option Int) : Except String Int :=
  match class_id with
  | none => .error "class_id is required."
  | some cid =>
    if cid = 0 then .error "class_id is required."
    else
      match db.findClass cid with
      | none => .error "Fitness class does not exist."
      | some fc =>
        if fc.available_slots ≤ 0 then .error "No slots available."
        else .ok cid

/-- Client.objects.get_or_create(email=client_email, defaults with
client_name): returns the row, the updated store, and the created flag.
An existing row is returned untouched; otherwise a fresh row is inserted
with the next client id and the provided name. -/
def getOrCreateClient (db : DB) (email name : String) : Client × DB × Bool :=
  match db.findClientByEmail email with
  | some c => (c, db, false)
  | none =>
    let c : Client := { id := db.nextClientId, name := name, email := email }
    let db2 := { db with
      clients := db.clients ++ [c]
      nextClientId := db.nextClientId + 1 }
    (c, db2, true)

/-- BookingSerializer.create (serializers.py lines 161-197): fetch the
class again, get-or-create the client, decrement available_slots and save,
then insert the Booking row. The none result models the uncaught
DoesNotExist exception of the unguarded fetch; no other step of the method
can fail. -/
def bookingCreate (db : DB) (class_id : Int) (client_name client_email : String) :
    Option (DB × Booking) :=
  match db.findClass class_id with
  | none => none
  | some fitness_class =>
    let r := getOrCreateClient db client_email client_name
    let db1 := r.2.1
    let fcDec := { fitness_class with
      available_slots := fitness_class.available_slots - 1 }
    let db2 := db1.saveClass fcDec
    let bk : Booking := {
      id := db2.nextBookingId
      fitness_class_id := fitness_class.id
      client_id := r.1.id }
    let db3 := { db2 with
      bookings := db2.bookings ++ [bk]
      nextBookingId := db2.nextBookingId + 1 }
    some (db3, bk)

/-- POST handler path of BookFitnessClass: the serializer runs validate and
only on success calls create. A validation failure surfaces the message and
leaves the store untouched, because validate only reads. The DoesNotExist
message models the exception that would escape create if the class vanished
between the two fetches; sequentially it is unreachable. -/
def allocate (db : DB) (class_id : Option Int) (client_name client_email : String) :
    DB × Except String Booking :=
  match validateBooking db class_id with
  | .error msg => (db, .error msg)
  | .ok cid =>
    match bookingCreate db cid client_name client_email with
    | none => (db, .error "FitnessClass matching query does not exist.")
    | some (db2, bk) => (db2, .ok bk)

/-- CreateFitnessClass view with CreateFitnessClassSerializer: the
available_slots field maps the model PositiveIntegerField, whose serializer
field rejects negative input before any row is written. -/
def createFitnessClass (db : DB) (class_name instructor : String)
    (start_time available_slots : Int) : DB × Except String FitnessClass :=
  if available_slots < 0 then
    (db, .error "Ensure this value is greater than or equal to 0.")
  else
    let fc : FitnessClass := {
      id := db.nextClassId
      class_name := class_name
      instructor := instructor
      available_slots := available_slots
      start_time := start_time }
    let db2 := { db with
      classes := db.classes ++ [fc]
      nextClassId := db.nextClassId + 1 }
    (db2, .ok fc)

/-- Ordering key of FitnessClassList (order_by start_time, ascending). -/
def byStartTime (a b : FitnessClass) : Prop := a.start_time ≤ b.start_time

instance : DecidableRel byStartTime := fun a b => Int.decLe a.start_time b.start_time

instance : IsTrans FitnessClass byStartTime :=
  ⟨fun _ _ _ h1 h2 => le_trans h1 h2⟩

instance : IsTotal FitnessClass byStartTime :=
  ⟨fun a b => le_total a.start_time b.start_time⟩

/-- FitnessClassList.get_queryset (views.py lines 80-85): rows whose
start_time is at or after the current time, ordered ascending by
start_time. -/
def upcomingClasses (db : DB) (now : Int) : List FitnessClass :=
  (db.classes.filter (fun c => now ≤ c.start_time)).insertionSort byStartTime

/-- Ordering key of BookingListByEmail (order_by descending id). -/
def byIdDesc (a b : Booking) : Prop := b.id ≤ a.id

instance : DecidableRel byIdDesc := fun a b => Nat.decLe b.id a.id

instance : IsTrans Booking byIdDesc :=
  ⟨fun _ _ _ h1 h2 => le_trans h2 h1⟩

instance : IsTotal Booking byIdDesc :=
  ⟨fun a b => Or.symm (le_total a.id b.id)⟩

/-- BookingListByEmail.get_queryset (views.py lines 128-134): `if not email`
is true for an absent parameter and for the empty string, giving the empty
queryset; otherwise the bookings whose related client has the given email,
newest first. -/
def bookingsByEmail (db : DB) (email : Option String) : List Booking :=
  match email with
  | none => []
  | some e =>
    if e = "" then []
    else
      (db.bookings.filter (fun b =>
        match db.findClientById b.client_id with
        | some c => c.email == e
        | none => false)).insertionSort byIdDesc

/-- Timezone record of the resolver: a name and a fixed UTC offset in
minutes (a display-level abstraction of a tzinfo object). -/
structure TZInfo where
  name : String
  offsetMinutes : Int
deriving Repr, DecidableEq

/-- Modelled from the spec: the timezone-name-to-offset resolver, an
external collaborator of section 6 (the pytz library in the source, which
is not part of this repository). An unknown name yields none, standing for
the UnknownTimeZoneError the library raises; a representative table of
known names is carried. -/
def pytz_timezone (s : String) : Option TZInfo :=
  if s = "UTC" then some { name := "UTC", offsetMinutes := 0 }
  else if s = "Asia/Kolkata" then some { name := "Asia/Kolkata", offsetMinutes := 330 }
  else if s = "US/Pacific" then some { name := "US/Pacific", offsetMinutes := -480 }
  else none

/-- FitnessClassSerializer.get_start_time_local (serializers.py lines
69-81): `pytz_timezone(tz_param) if tz_param else default`. The conditional
only guards the falsy parameter (absent, or the empty string), so an
unknown non-blank name propagates the resolver error and the request
fails. The produced value is the start time shifted into the zone. -/
def get_start_time_local (fc : FitnessClass) (tz_param : Option String)
    (defaultTz : TZInfo) : Except String Int :=
  match tz_param with
  | none => .ok (fc.start_time + defaultTz.offsetMinutes)
  | some s =>
    if s = "" then .ok (fc.start_time + defaultTz.offsetMinutes)
    else
      match pytz_timezone s with
      | none => .error (String.append "UnknownTimeZoneError: " s)
      | some tz => .ok (fc.start_time + tz.offsetMinutes)

/-- Booking request as received by the POST endpoint. -/
structure Req where
  class_id : Option Int
  client_name : String
  client_email : String
deriving Repr, DecidableEq

/-- Sequential execution of a list of booking requests, threading the
store and collecting each outcome in order. -/
def runAllocs (db : DB) : List Req → DB × List (Except String Booking)
  | [] => (db, [])
  | r :: rs =>
    let p := allocate db r.class_id r.client_name r.client_email
    let q := runAllocs p.1 rs
    (q.1, p.2 :: q.2)

/-- Mutating public operations (the read-only listings do not change the
store and are omitted from the step alphabet). -/
inductive Op where
  | book (class_id : Option Int) (client_name client_email : String)
  | createClass (class_name instructor : String) (start_time available_slots : Int)
deriving Repr, DecidableEq

/-- Effect of one public operation on the store, discarding the response. -/
def applyOp (db : DB) : Op → DB
  | .book cid n e => (allocate db cid n e).1
  | .createClass cn ins st sl => (createFitnessClass db cn ins st sl).1

/-- States reachable from db by a finite sequence of public operations. -/
def runOps (db : DB) (ops : List Op) : DB := ops.foldl applyOp db

/-- Capacity invariant of section 3 of the spec. -/
def SlotsNonneg (db : DB) : Prop := ∀ c ∈ db.classes, 0 ≤ c.available_slots

instance : DecidablePred SlotsNonneg := fun db => by
  unfold SlotsNonneg
  infer_instance

/-- Clients filed under one email. -/
def clientsWith (db : DB) (e : String) : List Client :=
  db.clients.filter (fun c => c.email == e)

/-- Client row inserted when no row with the email exists yet. -/
def mkClient (db : DB) (n e : String) : Client :=
  { id := db.nextClientId, name := n, email := e }

/-- Class row after the allocator decrement. -/
def decSlots (fc : FitnessClass) : FitnessClass :=
  { fc with available_slots := fc.available_slots - 1 }

theorem getOrCreateClient_found {db : DB} {e : String} (n : String) {c : Client}
    (h : db.findClientByEmail e = some c) :
    getOrCreateClient db e n = (c, db, false) := by
  unfold getOrCreateClient
  rw [h]

theorem getOrCreateClient_new {db : DB} {e : String} (n : String)
    (h : db.findClientByEmail e = none) :
    (getOrCreateClient db e n).1 = mkClient db n e ∧
    (getOrCreateClient db e n).2.1.clients = db.clients ++ [mkClient db n e] := by
  unfold getOrCreateClient
  rw [h]
  exact ⟨rfl, rfl⟩

theorem getOrCreateClient_frame (db : DB) (e n : String) :
    (getOrCreateClient db e n).2.1.classes = db.classes ∧
    (getOrCreateClient db e n).2.1.bookings = db.bookings ∧
    (getOrCreateClient db e n).2.1.nextBookingId = db.nextBookingId := by
  unfold getOrCreateClient
  rcases h : db.findClientByEmail e with _ | c <;> exact ⟨rfl, rfl, rfl⟩

theorem getOrCreateClient_clients (db : DB) (e n : String) :
    (getOrCreateClient db e n).2.1.clients = db.clients ∨
    (db.findClientByEmail e = none ∧
      (getOrCreateClient db e n).1 = mkClient db n e ∧
      (getOrCreateClient db e n).2.1.clients = db.clients ++ [mkClient db n e]) := by
  rcases h : db.findClientByEmail e with _ | c
  · exact Or.inr ⟨rfl, (getOrCreateClient_new n h).1, (getOrCreateClient_new n h).2⟩
  · left
    rw [getOrCreateClient_found n h]

theorem validateBooking_ok {db : DB} {cido : Option Int} {cid : Int}
    (h : validateBooking db cido = .ok cid) :
    cido = some cid ∧ cid ≠ 0 ∧
      ∃ fc, db.findClass cid = some fc ∧ 0 < fc.available_slots := by
  match cido with
  | none => simp [validateBooking] at h
  | some v =>
    simp only [validateBooking] at h
    by_cases hv : v = 0
    · simp [hv] at h
    · rw [if_neg hv] at h
      rcases hf : db.findClass v with _ | fc
      · simp only [hf] at h
        simp at h
      · simp only [hf] at h
        by_cases hs : fc.available_slots ≤ 0
        · simp [hs] at h
        · rw [if_neg hs] at h
          cases h
          exact ⟨rfl, hv, fc, hf, lt_of_not_le hs⟩

theorem validateBooking_error_iff (db : DB) (cido : Option Int) (msg : String) :
    validateBooking db cido = .error msg ↔
      ((cido = none ∨ cido = some 0) ∧ msg = "class_id is required.") ∨
      (∃ cid, cido = some cid ∧ cid ≠ 0 ∧ db.findClass cid = none ∧
        msg = "Fitness class does not exist.") ∨
      (∃ cid fc, cido = some cid ∧ cid ≠ 0 ∧ db.findClass cid = some fc ∧
        fc.available_slots ≤ 0 ∧ msg = "No slots available.") := by
  match cido with
  | none => simp [validateBooking, eq_comm]
  | some v =>
    simp only [validateBooking]
    by_cases hv : v = 0
    · subst hv
      simp [eq_comm]
    · rw [if_neg hv]
      rcases hf : db.findClass v with _ | fc
      · simp [hv, hf, eq_comm]
      · simp only [hf]
        by_cases hs : fc.available_slots ≤ 0
        · simp [hv, hf, hs, eq_comm]
        · rw [if_neg hs]
          simp [hv, hf, hs, eq_comm]

theorem bookingCreate_eq {db : DB} {cid : Int} (n e : String) {fc : FitnessClass}
    (hfc : db.findClass cid = some fc) :
    bookingCreate db cid n e =
      (let db1 := (getOrCreateClient db e n).2.1
       let db2 := db1.saveClass (decSlots fc)
       let bk : Booking := {
         id := db2.nextBookingId
         fitness_class_id := fc.id
         client_id := (getOrCreateClient db e n).1.id }
       some ({ db2 with
         bookings := db2.bookings ++ [bk]
         nextBookingId := db2.nextBookingId + 1 }, bk)) := by
  unfold bookingCreate
  rw [hfc]
  rfl

theorem bookingCreate_parts {db : DB} {cid : Int} (n e : String) {fc : FitnessClass}
    (hfc : db.findClass cid = some fc) :
    ∃ db2 bk, bookingCreate db cid n e = some (db2, bk) ∧
      db2.classes = db.classes.map (fun c => if c.id = fc.id then decSlots fc else c) ∧
      db2.clients = (getOrCreateClient db e n).2.1.clients ∧
      db2.bookings = db.bookings ++ [bk] ∧
      bk.id = db.nextBookingId ∧
      bk.fitness_class_id = fc.id ∧
      bk.client_id = (getOrCreateClient db e n).1.id := by
  obtain ⟨hcls, hbks, hnb⟩ := getOrCreateClient_frame db e n
  rw [bookingCreate_eq n e hfc]
  refine ⟨_, _, rfl, ?_, ?_, ?_, ?_, ?_, ?_⟩ <;>
    simp [DB.saveClass, hcls, hbks, hnb, decSlots]

theorem find?_map_save (l : List FitnessClass) (i : Int) (fc fc2 : FitnessClass)
    (h : l.find? (fun c => (c.id : Int) == i) = some fc) (hid : fc2.id = fc.id) :
    (l.map (fun c => if c.id = fc2.id then fc2 else c)).find?
      (fun c => (c.id : Int) == i) = some fc2 := by
  induction l with
  | nil => simp at h
  | cons a l ih =>
    by_cases hp : ((a.id : Int) == i) = true
    · rw [@List.find?_cons_of_pos _ (fun c => ((c.id : Int) == i)) a l hp] at h
      injection h with h
      subst h
      simp only [List.map_cons, if_pos hid.symm]
      apply List.find?_cons_of_pos
      simpa [hid] using hp
    · rw [@List.find?_cons_of_neg _ (fun c => ((c.id : Int) == i)) a l hp] at h
      have hpfc : ((fc.id : Int) == i) = true :=
        @List.find?_some _ (fun c => ((c.id : Int) == i)) fc l h
      have hne : ¬ (a.id = fc2.id) := by
        intro hcontr
        apply hp
        rw [hcontr, hid]
        exact hpfc
      simp only [List.map_cons, if_neg hne]
      rw [@List.find?_cons_of_neg _ (fun c => ((c.id : Int) == i)) a
        (List.map (fun c => if c.id = fc2.id then fc2 else c) l) hp]
      exact ih h

theorem allocate_ok_cases {db db2 : DB} {cido : Option Int} {n e : String} {bk : Booking}
    (h : allocate db cido n e = (db2, .ok bk)) :
    ∃ cid fc, cido = some cid ∧ db.findClass cid = some fc ∧
      0 < fc.available_slots ∧ bookingCreate db cid n e = some (db2, bk) := by
  rcases hv : validateBooking db cido with msg | cid
  · simp only [allocate, hv] at h
    simp at h
  · simp only [allocate, hv] at h
    obtain ⟨hc, hnz, fc, hfc, hpos⟩ := validateBooking_ok hv
    rcases hbc : bookingCreate db cid n e with _ | p
    · rw [hbc] at h
      simp at h
    · obtain ⟨d2, b2⟩ := p
      rw [hbc] at h
      simp only [Prod.mk.injEq, Except.ok.injEq] at h
      exact ⟨cid, fc, hc, hfc, hpos, by rw [hbc, h.1, h.2]⟩

theorem allocate_error_iff (db : DB) (cido : Option Int) (n e msg : String) :
    (allocate db cido n e).2 = .error msg ↔ validateBooking db cido = .error msg := by
  rcases hv : validateBooking db cido with m | cid
  · simp only [allocate, hv]
    simp
  · simp only [allocate, hv]
    obtain ⟨hc, hnz, fc, hfc, hpos⟩ := validateBooking_ok hv
    obtain ⟨db2, bk, hbc, _⟩ := bookingCreate_parts n e hfc
    rw [hbc]
    simp

theorem allocate_error_fst {db : DB} {cido : Option Int} {n e msg : String}
    (h : (allocate db cido n e).2 = .error msg) :
    (allocate db cido n e).1 = db := by
  rcases hv : validateBooking db cido with m | cid
  · simp only [allocate, hv]
  · exfalso
    obtain ⟨hc, hnz, fc, hfc, hpos⟩ := validateBooking_ok hv
    obtain ⟨db2, bk, hbc, _⟩ := bookingCreate_parts n e hfc
    simp only [allocate, hv, hbc] at h
    simp at h

theorem findClass_after {db2 db : DB} {fc : FitnessClass} {cid : Int}
    (hcls : db2.classes =
      db.classes.map (fun c => if c.id = fc.id then decSlots fc else c))
    (hfc : db.findClass cid = some fc) :
    db2.findClass cid = some (decSlots fc) := by
  unfold DB.findClass at hfc ⊢
  rw [hcls]
  exact find?_map_save db.classes cid fc (decSlots fc) hfc rfl

theorem mem_classes_after_ne {db2 db : DB} {fc : FitnessClass}
    (hcls : db2.classes =
      db.classes.map (fun c => if c.id = fc.id then decSlots fc else c))
    (c : FitnessClass) (hc : c ∈ db.classes) (hne : c.id ≠ fc.id) :
    c ∈ db2.classes := by
  rw [hcls]
  exact List.mem_map.mpr ⟨c, hc, by rw [if_neg hne]⟩

theorem mem_classes_after {db2 db : DB} {fc : FitnessClass}
    (hcls : db2.classes =
      db.classes.map (fun c => if c.id = fc.id then decSlots fc else c))
    (c : FitnessClass) (hc : c ∈ db2.classes) :
    c = decSlots fc ∨ c ∈ db.classes := by
  rw [hcls] at hc
  obtain ⟨a, ha, hEq⟩ := List.mem_map.mp hc
  by_cases hid : a.id = fc.id
  · rw [if_pos hid] at hEq
    exact Or.inl hEq.symm
  · rw [if_neg hid] at hEq
    exact Or.inr (hEq ▸ ha)

theorem allocate_preserves_SlotsNonneg (db : DB) (cido : Option Int) (n e : String)
    (h : SlotsNonneg db) : SlotsNonneg (allocate db cido n e).1 := by
  rcases hr : allocate db cido n e with ⟨db2, r⟩
  rcases r with msg | bk
  · have h1 : (allocate db cido n e).2 = .error msg := by rw [hr]
    have h2 := allocate_error_fst h1
    rw [hr] at h2
    exact h2.symm ▸ h
  · obtain ⟨cid, fc, hc, hfc, hpos, hbc⟩ := allocate_ok_cases hr
    obtain ⟨d2, b2, hbc2, hcls, hrest⟩ := bookingCreate_parts n e hfc
    rw [hbc2] at hbc
    have hdb : d2 = db2 := congrArg Prod.fst (Option.some.inj hbc)
    intro c hcmem
    rcases mem_classes_after (hdb ▸ hcls) c hcmem with hceq | hcold
    · rw [hceq]
      simp only [decSlots]
      omega
    · exact h c hcold

theorem createFitnessClass_preserves_SlotsNonneg (db : DB) (cn ins : String)
    (st sl : Int) (h : SlotsNonneg db) :
    SlotsNonneg (createFitnessClass db cn ins st sl).1 := by
  unfold createFitnessClass
  by_cases hs : sl < 0
  · rw [if_pos hs]
    exact h
  · rw [if_neg hs]
    intro c hc
    simp only [List.mem_append, List.mem_singleton] at hc
    rcases hc with hc | hc
    · exact h c hc
    · rw [hc]
      simpa using le_of_not_lt hs

/-- C1: for every successful allocate call, the available_slots of the
booked class afterwards equals its value before minus 1, exactly one new
Booking row exists (appended) referencing that class and the client
resolved by get-or-create, and no other class row loses capacity (every
other class row is carried over unchanged). -/
theorem allocate_success_effect (db db2 : DB) (cido : Option Int) (n e : String)
    (bk : Booking) (h : allocate db cido n e = (db2, .ok bk)) :
    ∃ cid fc, cido = some cid ∧ db.findClass cid = some fc ∧
      db2.findClass cid = some (decSlots fc) ∧
      (decSlots fc).available_slots = fc.available_slots - 1 ∧
      db2.bookings = db.bookings ++ [bk] ∧
      bk.fitness_class_id = fc.id ∧
      bk.client_id = (getOrCreateClient db e n).1.id ∧
      (∀ c ∈ db.classes, c.id ≠ fc.id → c ∈ db2.classes) := by
  obtain ⟨cid, fc, hc, hfc, hpos, hbc⟩ := allocate_ok_cases h
  obtain ⟨d2, b2, hbc2, hcls, hclients, hbks, hbid, hbfc, hbcl⟩ :=
    bookingCreate_parts n e hfc
  rw [hbc2] at hbc
  have hdb : d2 = db2 := congrArg Prod.fst (Option.some.inj hbc)
  have hbkk : b2 = bk := congrArg Prod.snd (Option.some.inj hbc)
  subst hdb
  subst hbkk
  exact ⟨cid, fc, hc, hfc, findClass_after hcls hfc, rfl, hbks, hbfc, hbcl,
    fun c hcm hne => mem_classes_after_ne hcls c hcm hne⟩

/-- Concrete one-class store used to witness C1. -/
def c1db : DB := {
  clients := []
  classes := [{ id := 1, class_name := "Yoga", instructor := "Mia",
                available_slots := 2, start_time := 50 }]
  bookings := []
  nextClientId := 1
  nextClassId := 2
  nextBookingId := 1 }

/-- Store after the witnessed C1 call. -/
def c1db2 : DB := {
  clients := [{ id := 1, name := "Alice", email := "alice@example.com" }]
  classes := [{ id := 1, class_name := "Yoga", instructor := "Mia",
                available_slots := 1, start_time := 50 }]
  bookings := [{ id := 1, fitness_class_id := 1, client_id := 1 }]
  nextClientId := 2
  nextClassId := 2
  nextBookingId := 2 }

/-- Witness for C1: the success hypothesis holds at a concrete call and the
conclusion follows by the theorem. -/
theorem allocate_success_effect_witness :
    (allocate c1db (some 1) "Alice" "alice@example.com" =
      (c1db2, .ok { id := 1, fitness_class_id := 1, client_id := 1 })) ∧
    (∃ cid fc, (some 1 : Option Int) = some cid ∧ c1db.findClass cid = some fc ∧
      c1db2.findClass cid = some (decSlots fc) ∧
      (decSlots fc).available_slots = fc.available_slots - 1 ∧
      c1db2.bookings = c1db.bookings ++
        [{ id := 1, fitness_class_id := 1, client_id := 1 }] ∧
      Booking.fitness_class_id { id := 1, fitness_class_id := 1, client_id := 1 } = fc.id ∧
      Booking.client_id { id := 1, fitness_class_id := 1, client_id := 1 } =
        (getOrCreateClient c1db "alice@example.com" "Alice").1.id ∧
      (∀ c ∈ c1db.classes, c.id ≠ fc.id → c ∈ c1db2.classes)) :=
  ⟨by rfl,
   allocate_success_effect c1db c1db2 (some 1) "Alice" "alice@example.com"
     { id := 1, fitness_class_id := 1, client_id := 1 } (by rfl)⟩

/-- C9: a request whose class_id is the integer 0 is rejected with the
missing-field message (the Python falsy test treats 0 as absent), not with
the not-found message, and the store is untouched. -/
theorem allocate_zero_class_id (db : DB) (n e : String) :
    allocate db (some 0) n e = (db, .error "class_id is required.") := by
  simp [allocate, validateBooking]

/-- C2 (amended): allocate fails exactly when class_id is absent or zero
(required-field message), or a nonzero class_id matches no row (not-exist
message), or the matched row has no free slot (no-slots message); and the
call either leaves the store untouched or succeeded. The amendment over the
original claim: the provided value 0 draws the required-field message, not
the not-exist message. -/
theorem allocate_failure_characterization (db : DB) (cido : Option Int)
    (n e msg : String) :
    ((allocate db cido n e).2 = .error msg ↔
      ((cido = none ∨ cido = some 0) ∧ msg = "class_id is required.") ∨
      (∃ cid, cido = some cid ∧ cid ≠ 0 ∧ db.findClass cid = none ∧
        msg = "Fitness class does not exist.") ∨
      (∃ cid fc, cido = some cid ∧ cid ≠ 0 ∧ db.findClass cid = some fc ∧
        fc.available_slots ≤ 0 ∧ msg = "No slots available.")) ∧
    ((allocate db cido n e).1 = db ∨ ∃ bk, (allocate db cido n e).2 = .ok bk) := by
  constructor
  · exact (allocate_error_iff db cido n e msg).trans
      (validateBooking_error_iff db cido msg)
  · rcases hr : (allocate db cido n e).2 with m | bk
    · exact Or.inl (allocate_error_fst hr)
    · exact Or.inr ⟨bk, rfl⟩

/-- Concrete store used for the C2 counterexample: one class with id 1 and
free slots; no class has id 0. -/
def c2db : DB := {
  clients := []
  classes := [{ id := 1, class_name := "Zumba", instructor := "Ana",
                available_slots := 3, start_time := 10 }]
  bookings := []
  nextClientId := 1
  nextClassId := 2
  nextBookingId := 1 }

/-- C2 counterexample: class_id 0 is explicitly provided and no ClassSession
with id 0 exists, so the claim as stated prescribes the not-exist message;
the code rejects with the required-field message instead (and the two
messages differ). -/
theorem allocate_zero_message_counterexample :
    c2db.findClass 0 = none ∧
    (some (0 : Int) ≠ (none : Option Int)) ∧
    (allocate c2db (some 0) "Bob" "bob@example.com").2 =
      .error "class_id is required." ∧
    ("class_id is required." ≠ "Fitness class does not exist.") := by
  refine ⟨by decide, by decide, by rfl, by decide⟩

/-- C3: the capacity invariant available_slots >= 0 holds in every state
reachable from a state satisfying it by any finite sequence of completed
public mutating operations (bookings and class creations; the listings read
only). -/
theorem slots_invariant (db : DB) (ops : List Op) (h : SlotsNonneg db) :
    SlotsNonneg (runOps db ops) := by
  induction ops generalizing db with
  | nil => exact h
  | cons op rest ih =>
    rcases op with ⟨cid, n, e⟩ | ⟨cn, ins, st, sl⟩
    · exact ih _ (allocate_preserves_SlotsNonneg db cid n e h)
    · exact ih _ (createFitnessClass_preserves_SlotsNonneg db cn ins st sl h)

/-- Empty store used to witness C3. -/
def c3db : DB := {
  clients := []
  classes := []
  bookings := []
  nextClientId := 1
  nextClassId := 1
  nextBookingId := 1 }

/-- Witnessed operation sequence for C3: create a one-slot class, fill it,
then attempt to overbook it. -/
def c3ops : List Op := [
  .createClass "Yoga" "Mia" 30 1,
  .book (some 1) "Alice" "alice@example.com",
  .book (some 1) "Bob" "bob@example.com"]

/-- Witness for C3 at a concrete initial state and operation sequence. -/
theorem slots_invariant_witness : SlotsNonneg c3db ∧ SlotsNonneg (runOps c3db c3ops) :=
  ⟨by decide, slots_invariant c3db c3ops (by decide)⟩

/-- C10: frame of a successful allocate call: the booked class keeps its
id, class_name, instructor and start_time; every other class row is carried
over unchanged; every pre-existing client row is carried over; and when the
email already had a client row, the clients table is exactly unchanged. -/
theorem allocate_frame (db db2 : DB) (cido : Option Int) (n e : String)
    (bk : Booking) (h : allocate db cido n e = (db2, .ok bk)) :
    ∃ cid fc fc2, cido = some cid ∧ db.findClass cid = some fc ∧
      db2.findClass cid = some fc2 ∧
      fc2.id = fc.id ∧ fc2.class_name = fc.class_name ∧
      fc2.instructor = fc.instructor ∧ fc2.start_time = fc.start_time ∧
      (∀ c ∈ db.classes, c.id ≠ fc.id → c ∈ db2.classes) ∧
      (∀ c ∈ db.clients, c ∈ db2.clients) ∧
      ((∃ c0, db.findClientByEmail e = some c0) → db2.clients = db.clients) := by
  obtain ⟨cid, fc, hc, hfc, hpos, hbc⟩ := allocate_ok_cases h
  obtain ⟨d2, b2, hbc2, hcls, hclients, hbks, hbid, hbfc, hbcl⟩ :=
    bookingCreate_parts n e hfc
  rw [hbc2] at hbc
  have hdb : d2 = db2 := congrArg Prod.fst (Option.some.inj hbc)
  subst hdb
  refine ⟨cid, fc, decSlots fc, hc, hfc, findClass_after hcls hfc,
    rfl, rfl, rfl, rfl,
    fun c hcm hne => mem_classes_after_ne hcls c hcm hne, ?_, ?_⟩
  · intro c hcm
    rw [hclients]
    rcases getOrCreateClient_clients db e n with hsame | ⟨hnone, hmk, happ⟩
    · rw [hsame]
      exact hcm
    · rw [happ]
      exact List.mem_append_left _ hcm
  · rintro ⟨c0, hc0⟩
    rw [hclients, getOrCreateClient_found n hc0]

/-- Concrete store used to witness C10: the email already has a client row
and the class has one slot. -/
def c10db : DB := {
  clients := [{ id := 1, name := "Ann", email := "ann@example.com" }]
  classes := [{ id := 1, class_name := "HIIT", instructor := "Ben",
                available_slots := 1, start_time := 70 }]
  bookings := []
  nextClientId := 2
  nextClassId := 2
  nextBookingId := 1 }

/-- Store after the witnessed C10 call. -/
def c10db2 : DB := {
  clients := [{ id := 1, name := "Ann", email := "ann@example.com" }]
  classes := [{ id := 1, class_name := "HIIT", instructor := "Ben",
                available_slots := 0, start_time := 70 }]
  bookings := [{ id := 1, fitness_class_id := 1, client_id := 1 }]
  nextClientId := 2
  nextClassId := 2
  nextBookingId := 2 }

/-- Witness for C10: the success hypothesis holds at a concrete call with a
pre-existing client and the conclusion follows by the theorem. -/
theorem allocate_frame_witness :
    (allocate c10db (some 1) "Annie" "ann@example.com" =
      (c10db2, .ok { id := 1, fitness_class_id := 1, client_id := 1 })) ∧
    (∃ cid fc fc2, (some 1 : Option Int) = some cid ∧
      c10db.findClass cid = some fc ∧
      c10db2.findClass cid = some fc2 ∧
      fc2.id = fc.id ∧ fc2.class_name = fc.class_name ∧
      fc2.instructor = fc.instructor ∧ fc2.start_time = fc.start_time ∧
      (∀ c ∈ c10db.classes, c.id ≠ fc.id → c ∈ c10db2.classes) ∧
      (∀ c ∈ c10db.clients, c ∈ c10db2.clients) ∧
      ((∃ c0, c10db.findClientByEmail "ann@example.com" = some c0) →
        c10db2.clients = c10db.clients)) :=
  ⟨by rfl,
   allocate_frame c10db c10db2 (some 1) "Annie" "ann@example.com"
     { id := 1, fitness_class_id := 1, client_id := 1 } (by rfl)⟩

/-- One-slot store against which two requests race in the C5 scenario. -/
def raceDB : DB := {
  clients := []
  classes := [{ id := 1, class_name := "HIIT", instructor := "Ben",
                available_slots := 1, start_time := 100 }]
  bookings := []
  nextClientId := 1
  nextClassId := 2
  nextBookingId := 1 }

/-- C5 counterexample: the interleaving validate-A, validate-B, create-A,
create-B of two requests. Both validations run against the same one-slot
state and pass; then both create steps run; the second re-fetches the
already-decremented row and decrements it to -1, and both Booking rows are
inserted (double booking of the last slot). -/
theorem race_double_decrement_counterexample :
    validateBooking raceDB (some 1) = .ok 1 ∧
    ((bookingCreate raceDB 1 "Alice" "alice@example.com").bind
        (fun p => bookingCreate p.1 1 "Bob" "bob@example.com")).map
        (fun p => (p.1.classes.map FitnessClass.available_slots,
                   p.1.bookings.length)) = some ([-1], 2) := by
  exact ⟨by rfl, by rfl⟩

/-- Request replayed in the C5 scenario. -/
def raceReq : Req := {
  class_id := some 1
  client_name := "Alice"
  client_email := "alice@example.com" }

/-- Store after the first sequential success in the C5 scenario. -/
def raceDB1 : DB := {
  clients := [{ id := 1, name := "Alice", email := "alice@example.com" }]
  classes := [{ id := 1, class_name := "HIIT", instructor := "Ben",
                available_slots := 0, start_time := 100 }]
  bookings := [{ id := 1, fitness_class_id := 1, client_id := 1 }]
  nextClientId := 2
  nextClassId := 2
  nextBookingId := 2 }

theorem raceDB1_all_fail (m : Nat) :
    runAllocs raceDB1 (List.replicate m raceReq) =
      (raceDB1, List.replicate m (.error "No slots available.")) := by
  induction m with
  | zero => rfl
  | succ k ih =>
    have hstep : allocate raceDB1 raceReq.class_id raceReq.client_name
        raceReq.client_email = (raceDB1, .error "No slots available.") := by rfl
    simp only [List.replicate_succ, runAllocs, hstep, ih]

/-- C5 (amended): the all-or-one outcome the claim asks for does hold under
sequential execution: N+1 allocate calls replayed one after the other
against the one-slot class produce exactly one success followed by N
failures with the no-slots message. Under concurrent interleaving of the
capacity check and the decrement it fails (see the counterexample). -/
theorem sequential_one_slot (n : Nat) :
    (runAllocs raceDB (List.replicate (n + 1) raceReq)).2 =
      .ok { id := 1, fitness_class_id := 1, client_id := 1 } ::
        List.replicate n (.error "No slots available.") := by
  have hstep : allocate raceDB raceReq.class_id raceReq.client_name
      raceReq.client_email =
      (raceDB1, .ok { id := 1, fitness_class_id := 1, client_id := 1 }) := by rfl
  simp only [List.replicate_succ, runAllocs, hstep, raceDB1_all_fail n]

/-- C6: the upcoming-classes listing returns exactly the class rows whose
start_time is at or after the given current time, in non-decreasing
start_time order. -/
theorem upcoming_classes_spec (db : DB) (now : Int) :
    (∀ c, c ∈ upcomingClasses db now ↔ c ∈ db.classes ∧ now ≤ c.start_time) ∧
    (upcomingClasses db now).Sorted byStartTime := by
  constructor
  · intro c
    unfold upcomingClasses
    rw [List.Perm.mem_iff (List.perm_insertionSort _ _), List.mem_filter]
    simp
  · exact List.sorted_insertionSort byStartTime _

/-- C7: the bookings-by-email listing returns the empty list for an absent
or blank email (never an error), and otherwise exactly the bookings whose
related client carries the given email, in descending id order
(newest first). -/
theorem bookings_by_email_spec (db : DB) (e : String) :
    bookingsByEmail db none = [] ∧
    bookingsByEmail db (some "") = [] ∧
    (e ≠ "" →
      (∀ b, b ∈ bookingsByEmail db (some e) ↔ b ∈ db.bookings ∧
        ∃ c, db.findClientById b.client_id = some c ∧ c.email = e) ∧
      (bookingsByEmail db (some e)).Sorted byIdDesc) := by
  refine ⟨rfl, rfl, fun he => ⟨?_, ?_⟩⟩
  · intro b
    simp only [bookingsByEmail]
    rw [if_neg he]
    rw [List.Perm.mem_iff (List.perm_insertionSort _ _), List.mem_filter]
    constructor
    · rintro ⟨hb, hp⟩
      rcases hcl : db.findClientById b.client_id with _ | c
      · rw [hcl] at hp
        simp at hp
      · rw [hcl] at hp
        exact ⟨hb, c, rfl, by simpa using hp⟩
    · rintro ⟨hb, c, hcl, hce⟩
      refine ⟨hb, ?_⟩
      rw [hcl]
      simpa using hce
  · simp only [bookingsByEmail]
    rw [if_neg he]
    exact List.sorted_insertionSort byIdDesc _

/-- Store with one client and two of its bookings, used to witness C7. -/
def c7db : DB := {
  clients := [{ id := 1, name := "Ann", email := "ann@example.com" }]
  classes := []
  bookings := [{ id := 1, fitness_class_id := 1, client_id := 1 },
               { id := 2, fitness_class_id := 1, client_id := 1 }]
  nextClientId := 2
  nextClassId := 1
  nextBookingId := 3 }

/-- Witness for C7: the non-blank hypothesis holds at a concrete email and
the filtered, descending listing follows by the theorem. -/
theorem bookings_by_email_spec_witness :
    ("ann@example.com" ≠ "") ∧
    ((∀ b, b ∈ bookingsByEmail c7db (some "ann@example.com") ↔
        b ∈ c7db.bookings ∧
        ∃ c, c7db.findClientById b.client_id = some c ∧
          c.email = "ann@example.com") ∧
      (bookingsByEmail c7db (some "ann@example.com")).Sorted byIdDesc) :=
  ⟨by decide, (bookings_by_email_spec c7db "ann@example.com").2.2 (by decide)⟩

/-- Default (server) timezone used in the C8 scenario. -/
def defaultTZ : TZInfo := { name := "UTC", offsetMinutes := 0 }

/-- Class row whose start time is localized in the C8 scenario. -/
def c8class : FitnessClass := {
  id := 1
  class_name := "Yoga"
  instructor := "Mia"
  available_slots := 5
  start_time := 1000 }

/-- C8 counterexample: an unrecognized timezone name makes the localization
raise the resolver error instead of falling back to the default timezone:
the call does not produce the fallback value the claim prescribes, so the
request fails. -/
theorem tz_invalid_counterexample :
    pytz_timezone "Mars/OlympusMons" = none ∧
    get_start_time_local c8class (some "Mars/OlympusMons") defaultTZ =
      .error "UnknownTimeZoneError: Mars/OlympusMons" ∧
    get_start_time_local c8class (some "Mars/OlympusMons") defaultTZ ≠
      .ok (c8class.start_time + defaultTZ.offsetMinutes) := by
  refine ⟨by rfl, by rfl, ?_⟩
  simp [get_start_time_local, pytz_timezone, defaultTZ, c8class]

/-- C8 (amended): the fallback to the default timezone applies exactly to
an absent or blank timezone parameter; a recognized name is used as given;
an unrecognized non-blank name makes the conversion fail with the resolver
error instead of falling back. -/
theorem tz_fallback_amended (fc : FitnessClass) (dtz : TZInfo) (s : String) :
    get_start_time_local fc none dtz = .ok (fc.start_time + dtz.offsetMinutes) ∧
    get_start_time_local fc (some "") dtz =
      .ok (fc.start_time + dtz.offsetMinutes) ∧
    (s ≠ "" → pytz_timezone s = none →
      get_start_time_local fc (some s) dtz =
        .error (String.append "UnknownTimeZoneError: " s)) ∧
    (∀ tz, s ≠ "" → pytz_timezone s = some tz →
      get_start_time_local fc (some s) dtz =
        .ok (fc.start_time + tz.offsetMinutes)) := by
  refine ⟨rfl, rfl, fun hs hp => ?_, fun tz hs hp => ?_⟩ <;>
    simp [get_start_time_local, hs, hp]

/-- Witness for C8 (amended) at a recognized name: the hypotheses hold for
the Asia/Kolkata entry of the resolver table and the localized value
follows by the theorem. -/
theorem tz_fallback_amended_witness :
    ("Asia/Kolkata" ≠ "") ∧
    get_start_time_local c8class (some "Asia/Kolkata") defaultTZ =
      .ok (c8class.start_time + TZInfo.offsetMinutes
        { name := "Asia/Kolkata", offsetMinutes := 330 }) :=
  ⟨by decide,
   (tz_fallback_amended c8class defaultTZ "Asia/Kolkata").2.2.2
     { name := "Asia/Kolkata", offsetMinutes := 330 } (by decide) (by rfl)⟩

theorem findClientByEmail_none_iff (db : DB) (e : String) :
    db.findClientByEmail e = none ↔ clientsWith db e = [] := by
  unfold DB.findClientByEmail clientsWith
  rw [List.find?_eq_none, List.filter_eq_nil_iff]

theorem runAllocs_fst_cons (db : DB) (r : Req) (rs : List Req) :
    (runAllocs db (r :: rs)).1 =
      (runAllocs (allocate db r.class_id r.client_name r.client_email).1 rs).1 := rfl

theorem runAllocs_append (db : DB) (l1 l2 : List Req) :
    (runAllocs db (l1 ++ l2)).1 = (runAllocs (runAllocs db l1).1 l2).1 := by
  induction l1 generalizing db with
  | nil => rfl
  | cons r rs ih =>
    rw [List.cons_append, runAllocs_fst_cons, runAllocs_fst_cons]
    exact ih _

theorem allocate_clients_cases (db : DB) (cido : Option Int) (n e : String) :
    (allocate db cido n e).1.clients = db.clients ∨
    (db.findClientByEmail e = none ∧
      (allocate db cido n e).1.clients = db.clients ++ [mkClient db n e]) := by
  rcases hr : allocate db cido n e with ⟨db2, r⟩
  rcases r with msg | bk
  · left
    have h1 : (allocate db cido n e).2 = .error msg := by rw [hr]
    have h2 := allocate_error_fst h1
    rw [hr] at h2
    rw [h2]
  · obtain ⟨cid, fc, hc, hfc, hpos, hbc⟩ := allocate_ok_cases hr
    obtain ⟨d2, b2, hbc2, hcls, hclients, hrest⟩ := bookingCreate_parts n e hfc
    rw [hbc2] at hbc
    have hdb : d2 = db2 := congrArg Prod.fst (Option.some.inj hbc)
    subst hdb
    rcases getOrCreateClient_clients db e n with hsame | ⟨hnone, hmk, happ⟩
    · left
      rw [hclients, hsame]
    · right
      exact ⟨hnone, by rw [hclients, happ]⟩

theorem clientsWith_persist (db : DB) (reqs : List Req) (e : String)
    (hall : ∀ r ∈ reqs, r.client_email = e)
    (hne : clientsWith db e ≠ []) :
    clientsWith (runAllocs db reqs).1 e = clientsWith db e := by
  induction reqs generalizing db with
  | nil => rfl
  | cons r rs ih =>
    have hre : r.client_email = e := hall r (List.mem_cons_self r rs)
    rw [runAllocs_fst_cons]
    have hfind : ¬ db.findClientByEmail e = none := fun hn =>
      hne ((findClientByEmail_none_iff db e).mp hn)
    rcases allocate_clients_cases db r.class_id r.client_name r.client_email with
      hsame | ⟨hnone, happ⟩
    · have hstep :
          clientsWith (allocate db r.class_id r.client_name r.client_email).1 e =
            clientsWith db e := by
        unfold clientsWith
        rw [hsame]
      rw [ih _ (fun x hx => hall x (List.mem_cons_of_mem r hx))
        (by rw [hstep]; exact hne)]
      exact hstep
    · rw [hre] at hnone
      exact absurd hnone hfind

theorem clientsWith_length_le (db : DB) (reqs : List Req) (e : String)
    (hall : ∀ r ∈ reqs, r.client_email = e)
    (hone : (clientsWith db e).length ≤ 1) :
    (clientsWith (runAllocs db reqs).1 e).length ≤ 1 := by
  induction reqs generalizing db with
  | nil => exact hone
  | cons r rs ih =>
    have hre : r.client_email = e := hall r (List.mem_cons_self r rs)
    rw [runAllocs_fst_cons]
    apply ih _ (fun x hx => hall x (List.mem_cons_of_mem r hx))
    rcases allocate_clients_cases db r.class_id r.client_name r.client_email with
      hsame | ⟨hnone, happ⟩
    · unfold clientsWith
      rw [hsame]
      exact hone
    · rw [hre] at hnone
      have hempty : clientsWith db e = [] := (findClientByEmail_none_iff db e).mp hnone
      have h1 : db.clients.filter (fun c => c.email == e) = [] := hempty
      unfold clientsWith
      rw [happ, List.filter_append, h1]
      simp [mkClient, hre]

theorem clientsWith_new_names (db : DB) (reqs : List Req) (e : String)
    (hall : ∀ r ∈ reqs, r.client_email = e) :
    ∀ c ∈ clientsWith (runAllocs db reqs).1 e, c ∉ db.clients →
      ∃ r ∈ reqs, r.client_name = c.name ∧ r.client_email = e := by
  induction reqs generalizing db with
  | nil =>
    intro c hc hnc
    exact absurd (List.mem_of_mem_filter hc) hnc
  | cons r rs ih =>
    intro c hc hnc
    have hre : r.client_email = e := hall r (List.mem_cons_self r rs)
    rw [runAllocs_fst_cons] at hc
    rcases allocate_clients_cases db r.class_id r.client_name r.client_email with
      hsame | ⟨hnone, happ⟩
    · obtain ⟨x, hx, h1, h2⟩ :=
        ih _ (fun y hy => hall y (List.mem_cons_of_mem r hy)) c hc
          (by rw [hsame]; exact hnc)
      exact ⟨x, List.mem_cons_of_mem r hx, h1, h2⟩
    · by_cases hm : c ∈ (allocate db r.class_id r.client_name r.client_email).1.clients
      · rw [happ] at hm
        rcases List.mem_append.mp hm with hold | hnew
        · exact absurd hold hnc
        · have hceq : c = mkClient db r.client_name r.client_email :=
            List.mem_singleton.mp hnew
          exact ⟨r, List.mem_cons_self r rs, by rw [hceq]; rfl, hre⟩
      · obtain ⟨x, hx, h1, h2⟩ :=
          ih _ (fun y hy => hall y (List.mem_cons_of_mem r hy)) c hc hm
        exact ⟨x, List.mem_cons_of_mem r hx, h1, h2⟩

/-- C4: across any sequence of allocate calls sharing one client_email, at
most one Client row ever exists for that email; any row created during the
sequence takes its stored name from the client_name of one of the calls;
and from the first prefix after which a row for the email exists, the rows
for that email — stored name included — never change again, even when later
calls supply a different client_name. -/
theorem client_idempotent_identity (db : DB) (reqs : List Req) (e : String)
    (hone : (clientsWith db e).length ≤ 1)
    (hall : ∀ r ∈ reqs, r.client_email = e) :
    ((clientsWith (runAllocs db reqs).1 e).length ≤ 1) ∧
    (∀ c ∈ clientsWith (runAllocs db reqs).1 e, c ∉ db.clients →
      ∃ r ∈ reqs, r.client_name = c.name ∧ r.client_email = e) ∧
    (∀ i, clientsWith (runAllocs db (reqs.take i)).1 e ≠ [] →
      clientsWith (runAllocs db reqs).1 e =
        clientsWith (runAllocs db (reqs.take i)).1 e) := by
  refine ⟨clientsWith_length_le db reqs e hall hone,
    clientsWith_new_names db reqs e hall, ?_⟩
  intro i hne
  have hsplit : reqs.take i ++ reqs.drop i = reqs := List.take_append_drop i reqs
  have h1 : (runAllocs db reqs).1 =
      (runAllocs (runAllocs db (reqs.take i)).1 (reqs.drop i)).1 := by
    conv_lhs => rw [← hsplit]
    exact runAllocs_append db (reqs.take i) (reqs.drop i)
  rw [h1]
  exact clientsWith_persist _ _ e
    (fun r hr => hall r (List.drop_subset i reqs hr)) hne

/-- Store with one bookable class and no clients, used to witness C4. -/
def c4db : DB := {
  clients := []
  classes := [{ id := 1, class_name := "Yoga", instructor := "Mia",
                available_slots := 5, start_time := 10 }]
  bookings := []
  nextClientId := 1
  nextClassId := 2
  nextBookingId := 1 }

/-- Two same-email requests with different names, used to witness C4. -/
def c4reqs : List Req := [
  { class_id := some 1, client_name := "Alice", client_email := "a@example.com" },
  { class_id := some 1, client_name := "Alicia", client_email := "a@example.com" }]

/-- Witness for C4: the hypotheses hold at a concrete store and same-email
request sequence with differing names, and the conclusion follows by the
theorem. -/
theorem client_idempotent_identity_witness :
    ((clientsWith c4db "a@example.com").length ≤ 1) ∧
    (∀ r ∈ c4reqs, r.client_email = "a@example.com") ∧
    (((clientsWith (runAllocs c4db c4reqs).1 "a@example.com").length ≤ 1) ∧
     (∀ c ∈ clientsWith (runAllocs c4db c4reqs).1 "a@example.com",
        c ∉ c4db.clients →
        ∃ r ∈ c4reqs, r.client_name = c.name ∧
          r.client_email = "a@example.com") ∧
     (∀ i, clientsWith (runAllocs c4db (c4reqs.take i)).1 "a@example.com" ≠ [] →
        clientsWith (runAllocs c4db c4reqs).1 "a@example.com" =
          clientsWith (runAllocs c4db (c4reqs.take i)).1 "a@example.com")) :=
  ⟨by decide, by decide,
   client_idempotent_identity c4db c4reqs "a@example.com" (by decide) (by decide)⟩
